import Mathlib

/-!
Verification of the agent control plane in
`src/cursor_compatible/src/api/agent_controller.py`.

The Python module stores per-agent documents in Redis under string keys
`agent:{id}:registration`, `agent:{id}:state`, `agent:{id}:metrics`,
`agent:{id}:last_signal`, publishes events on the Redis topic
`agent_events` and on per-agent command channels, and broadcasts
status-change messages directly to connected WebSocket clients.

The embedding below models:
  * parsed JSON documents as the inductive type `Json`
    (JSON numbers are modelled as integers; the claims under study only
    involve integer-valued numbers);
  * Python dictionaries / JSON objects as ordered association lists
    (`aget` / `aset` / `ahas` mirror `d[k]`, `d[k] = v`, `k in d`:
    assignment updates an existing key in place, otherwise appends,
    matching insertion-ordered Python dicts);
  * the Redis store as an association list from key strings to raw
    values (`RVal`): raw byte strings, integer strings, or serialized
    JSON documents (kept in parsed form);
  * each FastAPI handler as a pure function from the store, the request
    arguments and the wall-clock times it samples, to the HTTP result,
    the updated store, and the published effects.
-/

inductive Json where
  | null : Json
  | bool : Bool → Json
  | num : Int → Json
  | str : String → Json
  | arr : List Json → Json
  | obj : List (String × Json) → Json

/-- Python truthiness of a parsed JSON value (`if value:` / `or value`). -/
def jsonTruthy : Json → Bool
  | Json.null => false
  | Json.bool b => b
  | Json.num n => n != 0
  | Json.str s => s ≠ ""
  | Json.arr xs => ¬ xs.isEmpty
  | Json.obj fs => ¬ fs.isEmpty

section Alist

variable {α : Type}

/-- Dictionary lookup `d.get(k)` / `d[k]` on an insertion-ordered dict
modelled as an association list (first binding wins). -/
def aget (d : List (String × α)) (k : String) : Option α :=
  (d.find? (fun p => p.1 = k)).map Prod.snd

/-- Key-membership test `k in d`. -/
def ahas (d : List (String × α)) (k : String) : Bool :=
  d.any (fun p => p.1 = k)

/-- Dictionary assignment `d[k] = v`: replaces the binding in place when
the key is present, otherwise appends the new binding at the end. -/
def aset (d : List (String × α)) (k : String) (v : α) : List (String × α) :=
  if ahas d k then d.map (fun p => if p.1 = k then (k, v) else p)
  else d ++ [(k, v)]

theorem aget_nil (k : String) : aget ([] : List (String × α)) k = none := rfl

theorem aget_cons (k₁ : String) (v₁ : α) (rest : List (String × α)) (k : String) :
    aget ((k₁, v₁) :: rest) k = if k₁ = k then some v₁ else aget rest k := by
  by_cases h : k₁ = k <;> simp [aget, List.find?, h]

theorem ahas_cons (k₁ : String) (v₁ : α) (rest : List (String × α)) (k : String) :
    ahas ((k₁, v₁) :: rest) k = (k₁ = k || ahas rest k) := by
  simp [ahas, List.any_cons]

theorem aget_eq_none_iff_ahas (d : List (String × α)) (k : String) :
    aget d k = none ↔ ahas d k = false := by
  induction d with
  | nil => simp [aget, ahas]
  | cons hd rest ih =>
    obtain ⟨k₁, v₁⟩ := hd
    by_cases h : k₁ = k <;> simp [aget_cons, ahas_cons, h, ih]

theorem ahas_of_aget_eq_some (d : List (String × α)) (k : String) (v : α)
    (h : aget d k = some v) : ahas d k = true := by
  cases hh : ahas d k
  · rw [(aget_eq_none_iff_ahas d k).mpr hh] at h
    cases h
  · rfl

theorem ahas_iff_mem_keys (d : List (String × α)) (k : String) :
    ahas d k = true ↔ k ∈ d.map Prod.fst := by
  simp only [ahas, List.any_eq_true, List.mem_map, decide_eq_true_eq]

/-- In-place replacement part of `aset` (the key is already present). -/
def areplace (d : List (String × α)) (k : String) (v : α) : List (String × α) :=
  d.map (fun p => if p.1 = k then (k, v) else p)

theorem aset_eq (d : List (String × α)) (k : String) (v : α) :
    aset d k v = if ahas d k then areplace d k v else d ++ [(k, v)] := rfl

theorem areplace_cons_self (k : String) (v₁ : α) (rest : List (String × α)) (v : α) :
    areplace ((k, v₁) :: rest) k v = (k, v) :: areplace rest k v := by
  simp [areplace]

theorem areplace_cons_ne (k₁ : String) (v₁ : α) (rest : List (String × α))
    (k : String) (v : α) (h : k₁ ≠ k) :
    areplace ((k₁, v₁) :: rest) k v = (k₁, v₁) :: areplace rest k v := by
  simp [areplace, h]

theorem aget_areplace_self (d : List (String × α)) (k : String) (v : α)
    (h : ahas d k = true) : aget (areplace d k v) k = some v := by
  induction d with
  | nil => simp [ahas] at h
  | cons hd rest ih =>
    obtain ⟨k₁, v₁⟩ := hd
    by_cases h₁ : k₁ = k
    · subst h₁
      rw [areplace_cons_self, aget_cons]
      simp
    · have h' : ahas rest k = true := by
        rw [ahas_cons] at h
        simpa [h₁] using h
      rw [areplace_cons_ne k₁ v₁ rest k v h₁, aget_cons]
      simp only [h₁, if_false]
      exact ih h'

theorem aget_areplace_ne (d : List (String × α)) (k k' : String) (v : α)
    (h : k' ≠ k) : aget (areplace d k v) k' = aget d k' := by
  induction d with
  | nil => rfl
  | cons hd rest ih =>
    obtain ⟨k₁, v₁⟩ := hd
    by_cases h₁ : k₁ = k
    · subst h₁
      have hne : ¬ (k₁ = k') := fun hk => h hk.symm
      rw [areplace_cons_self, aget_cons, aget_cons]
      simp only [hne, if_false]
      exact ih
    · rw [areplace_cons_ne k₁ v₁ rest k v h₁, aget_cons, aget_cons]
      by_cases h₂ : k₁ = k'
      · simp [h₂]
      · simp only [h₂, if_false]
        exact ih

theorem aget_append_single_self (d : List (String × α)) (k : String) (v : α)
    (h : ahas d k = false) : aget (d ++ [(k, v)]) k = some v := by
  induction d with
  | nil => simp [aget_cons]
  | cons hd rest ih =>
    obtain ⟨k₁, v₁⟩ := hd
    rw [ahas_cons] at h
    by_cases h₁ : k₁ = k
    · simp [h₁] at h
    · rw [List.cons_append, aget_cons]
      simp only [h₁, if_false]
      exact ih (by simpa [h₁] using h)

theorem aget_append_single_ne (d : List (String × α)) (k k' : String) (v : α)
    (h : k' ≠ k) : aget (d ++ [(k, v)]) k' = aget d k' := by
  induction d with
  | nil =>
    have hne : ¬ (k = k') := fun hk => h hk.symm
    simp [aget_cons, aget_nil, hne]
  | cons hd rest ih =>
    obtain ⟨k₁, v₁⟩ := hd
    rw [List.cons_append, aget_cons, aget_cons]
    by_cases h₂ : k₁ = k'
    · simp [h₂]
    · simp only [h₂, if_false]
      exact ih

theorem aget_aset_self (d : List (String × α)) (k : String) (v : α) :
    aget (aset d k v) k = some v := by
  rw [aset_eq]
  cases hh : ahas d k
  · simp only [if_false, Bool.false_eq_true]
    exact aget_append_single_self d k v hh
  · simp only [if_true]
    exact aget_areplace_self d k v hh

theorem aget_aset_ne (d : List (String × α)) (k k' : String) (v : α) (h : k' ≠ k) :
    aget (aset d k v) k' = aget d k' := by
  rw [aset_eq]
  cases hh : ahas d k
  · simp only [Bool.false_eq_true, if_false]
    exact aget_append_single_ne d k k' v h
  · simp only [if_true]
    exact aget_areplace_ne d k k' v h

theorem akeys_areplace (d : List (String × α)) (k : String) (v : α) :
    (areplace d k v).map Prod.fst = d.map Prod.fst := by
  induction d with
  | nil => rfl
  | cons hd rest ih =>
    obtain ⟨k₁, v₁⟩ := hd
    by_cases h₁ : k₁ = k
    · subst h₁
      rw [areplace_cons_self]
      simp only [List.map_cons, ih]
    · rw [areplace_cons_ne k₁ v₁ rest k v h₁]
      simp only [List.map_cons, ih]

theorem akeys_aset_nodup (d : List (String × α)) (k : String) (v : α)
    (h : (d.map Prod.fst).Nodup) : ((aset d k v).map Prod.fst).Nodup := by
  rw [aset_eq]
  cases hh : ahas d k
  · simp only [Bool.false_eq_true, if_false]
    have hk : k ∉ d.map Prod.fst := fun hm => by
      rw [← ahas_iff_mem_keys] at hm
      rw [hm] at hh
      cases hh
    rw [List.map_append]
    exact h.append (List.nodup_singleton k) (fun a ha hb => by
      have hb' : a = k := by simpa using hb
      exact hk (hb' ▸ ha))
  · simp only [if_true]
    rw [akeys_areplace]
    exact h

theorem aget_eq_none_of_not_mem (d : List (String × α)) (k : String)
    (h : k ∉ d.map Prod.fst) : aget d k = none := by
  rw [aget_eq_none_iff_ahas]
  cases hh : ahas d k
  · rfl
  · exact absurd ((ahas_iff_mem_keys d k).mp hh) h

end Alist

/-- The recursive deep-merge from `inject_config` (`agent_controller.py`
lines 423–429):

    def deep_update(d, u):
        for k, v in u.items():
            if isinstance(v, dict) and k in d and isinstance(d[k], dict):
                deep_update(d[k], v)
            else:
                d[k] = v

modelled functionally: the result is the value of `d` after the loop. -/
def deep_update : List (String × Json) → List (String × Json) → List (String × Json)
  | d, [] => d
  | d, (k, Json.obj vo) :: rest =>
    (match aget d k with
     | some (Json.obj dv) => deep_update (aset d k (Json.obj (deep_update dv vo))) rest
     | _ => deep_update (aset d k (Json.obj vo)) rest)
  | d, (k, v) :: rest => deep_update (aset d k v) rest
termination_by _ u => sizeOf u
decreasing_by all_goals (simp; try omega)

theorem deep_update_nil (d : List (String × Json)) : deep_update d [] = d := by
  simp [deep_update]

/-- Value stored at one key by a single `deep_update` loop iteration:
when both the incoming and the existing value are documents the existing
one is merged recursively, otherwise the incoming value replaces it. -/
def mergeVal (dv : Option Json) (uv : Json) : Json :=
  match uv, dv with
  | Json.obj uo, some (Json.obj dfields) => Json.obj (deep_update dfields uo)
  | _, _ => uv

theorem deep_update_cons (d : List (String × Json)) (k : String) (v : Json)
    (rest : List (String × Json)) :
    deep_update d ((k, v) :: rest) =
      deep_update (aset d k (mergeVal (aget d k) v)) rest := by
  cases v with
  | obj vo =>
    cases hdk : aget d k with
    | none => simp [deep_update, mergeVal, hdk]
    | some dv => cases dv <;> simp [deep_update, mergeVal, hdk]
  | null => simp [deep_update, mergeVal]
  | bool b => simp [deep_update, mergeVal]
  | num n => simp [deep_update, mergeVal]
  | str s => simp [deep_update, mergeVal]
  | arr xs => simp [deep_update, mergeVal]

theorem deep_update_aget (u : List (String × Json)) (hu : (u.map Prod.fst).Nodup) :
    ∀ (d : List (String × Json)) (k : String),
      aget (deep_update d u) k =
        match aget u k with
        | none => aget d k
        | some uv => some (mergeVal (aget d k) uv) := by
  induction u with
  | nil =>
    intro d k
    rw [deep_update_nil]
    rfl
  | cons hd rest ih =>
    intro d k
    obtain ⟨k₁, v₁⟩ := hd
    have hrest : (rest.map Prod.fst).Nodup := (List.nodup_cons.mp (by simpa using hu)).2
    rw [deep_update_cons, ih hrest _ k]
    by_cases hk : k₁ = k
    · subst hk
      have hnone : aget rest k₁ = none :=
        aget_eq_none_of_not_mem _ _ ((List.nodup_cons.mp (by simpa using hu)).1)
      simp [hnone, aget_aset_self, aget_cons]
    · have hcons : aget ((k₁, v₁) :: rest) k = aget rest k := by
        rw [aget_cons]
        simp [hk]
      have hne : aget (aset d k₁ (mergeVal (aget d k₁) v₁)) k = aget d k :=
        aget_aset_ne _ _ _ _ (fun h => hk h.symm)
      rw [hcons, hne]

/-- A raw Redis value: a plain byte string (used for the `state` key and
for empty command payloads), an integer string (used for `last_signal`),
or a serialized JSON document kept in parsed form.  Redis stores all of
these as byte strings; the constructors record which decoding the stored
text admits. -/
inductive RVal where
  | s : String → RVal
  | i : Int → RVal
  | j : Json → RVal

/-- Python falsiness of the fetched bytes (`if not agent_data:`): only
the empty byte string is falsy; integer strings and serialized JSON
documents are never empty. -/
def rvalFalsy : RVal → Bool
  | RVal.s v => v = ""
  | RVal.i _ => false
  | RVal.j _ => false

/-- `json.loads` on the stored bytes.  A serialized document parses to
itself, an integer string parses to a JSON number, and the raw state
strings (`paused`, `running`, …) are not valid JSON text. -/
def rvalToJson : RVal → Option Json
  | RVal.j v => some v
  | RVal.i n => some (Json.num n)
  | RVal.s _ => none

/-- The Redis key/value store, as seen through `r.get` / `r.set` /
`r.exists` / `r.keys`. -/
abbrev Store := List (String × RVal)

/-- `r.get key` -/
def rget (st : Store) (k : String) : Option RVal := aget st k

/-- `r.set key value` -/
def rset (st : Store) (k : String) (v : RVal) : Store := aset st k v

/-- `r.exists key` -/
def rexists (st : Store) (k : String) : Bool := ahas st k

-- Key construction, following the f-strings in the source.
def regKey (agentId : String) : String := "agent:" ++ agentId ++ ":registration"

def stateKey (agentId : String) : String := "agent:" ++ agentId ++ ":state"

def metricsKey (agentId : String) : String := "agent:" ++ agentId ++ ":metrics"

def lastSignalKey (agentId : String) : String := "agent:" ++ agentId ++ ":last_signal"

def pauseCmdKey (agentId : String) : String := "agent:" ++ agentId ++ ":pause"

def resumeCmdKey (agentId : String) : String := "agent:" ++ agentId ++ ":resume"

def restartCmdKey (agentId : String) : String := "agent:" ++ agentId ++ ":restart"

def injectCmdKey (agentId : String) : String := "agent:" ++ agentId ++ ":inject_config"

/-- The Redis glob pattern `agent:*:registration` used by `list_agents`:
a key matches iff it is `"agent:" ++ m ++ ":registration"` for some
(possibly empty) middle part `m`. -/
def matchesRegPattern (k : String) : Bool :=
  let l := k.data
  let p := "agent:".data
  let s := ":registration".data
  decide (p.length + s.length ≤ l.length) &&
    decide (l.take p.length = p) &&
    decide (l.drop (l.length - s.length) = s)

-- The four per-agent document kinds end in four distinct characters
-- (`…:registration`, `…:state`, `…:metrics`, `…:last_signal`), so keys
-- of different kinds are never equal, whatever the agent ids are.
theorem strLast_append_right (x y : String) (h : y.data ≠ []) :
    (x ++ y).data.getLast? = y.data.getLast? := by
  rw [String.data_append]
  exact List.getLast?_append_of_ne_nil _ h

theorem stateKey_ne_regKey (a b : String) : stateKey a ≠ regKey b := by
  intro h
  have hdata : (stateKey a).data.getLast? = (regKey b).data.getLast? := by rw [h]
  rw [stateKey, regKey] at hdata
  rw [strLast_append_right ("agent:" ++ a) ":state" (by decide)] at hdata
  rw [strLast_append_right ("agent:" ++ b) ":registration" (by decide)] at hdata
  simp at hdata

theorem stateKey_ne_metricsKey (a b : String) : stateKey a ≠ metricsKey b := by
  intro h
  have hdata : (stateKey a).data.getLast? = (metricsKey b).data.getLast? := by rw [h]
  rw [stateKey, metricsKey] at hdata
  rw [strLast_append_right ("agent:" ++ a) ":state" (by decide)] at hdata
  rw [strLast_append_right ("agent:" ++ b) ":metrics" (by decide)] at hdata
  simp at hdata

theorem stateKey_ne_lastSignalKey (a b : String) : stateKey a ≠ lastSignalKey b := by
  intro h
  have hdata : (stateKey a).data.getLast? = (lastSignalKey b).data.getLast? := by rw [h]
  rw [stateKey, lastSignalKey] at hdata
  rw [strLast_append_right ("agent:" ++ a) ":state" (by decide)] at hdata
  rw [strLast_append_right ("agent:" ++ b) ":last_signal" (by decide)] at hdata
  simp at hdata

/-- Side effects of one API call: Redis publishes `(channel, payload)`
(the shared `agent_events` topic and the per-agent command channels) and
direct WebSocket broadcasts (`broadcast_websocket_message`), each in
program order. -/
structure Effects where
  pubs : List (String × RVal)
  ws : List Json

def emptyFx : Effects := ⟨[], []⟩

/-- The event dict built by `publish_agent_event`: base fields `type`,
`agentId`, `timestamp`, then `message.update(data)` (a no-op when `data`
is `None` or empty, modelled as the empty list). -/
def eventMsg (etype agentId : String) (ts : Int) (data : List (String × Json)) : Json :=
  Json.obj (data.foldl (fun m kv => aset m kv.1 kv.2)
    [("type", Json.str etype), ("agentId", Json.str agentId), ("timestamp", Json.num ts)])

/-- `publish_agent_event` publishes the serialized event on the shared
`agent_events` channel. -/
def publish_agent_event (etype agentId : String) (ts : Int)
    (data : List (String × Json)) : String × RVal :=
  ("agent_events", RVal.j (eventMsg etype agentId ts data))

/-- The `agent_status_changed` dict broadcast to WebSocket clients. -/
def statusChangedMsg (agentId status : String) (ts : Int) : Json :=
  Json.obj [("type", Json.str "agent_status_changed"), ("agentId", Json.str agentId),
            ("status", Json.str status), ("timestamp", Json.num ts)]

/-- The `agent_config_updated` dict broadcast to WebSocket clients. -/
def configUpdatedMsg (agentId : String) (ts : Int) : Json :=
  Json.obj [("type", Json.str "agent_config_updated"), ("agentId", Json.str agentId),
            ("timestamp", Json.num ts)]

/-- Error outcomes of the handlers.  `pyError` stands for an uncaught
Python runtime error (reachable only on documents whose dynamic types
differ from the data model; no claim exercises those paths). -/
inductive ApiErr where
  | agentNotFound      -- HTTPException 404 "Agent not found"
  | noExecutionConfig  -- HTTPException 400 "Agent does not have execution configuration"
  | notInCanary        -- HTTPException 400 "Agent is not in canary mode"
  | pyError
deriving DecidableEq

/-- The `AgentStatus` response model `{success, message}`. -/
structure AgentStatus where
  success : Bool
  message : String
deriving DecidableEq

/-- `POST /api/agent/pause`.  `tEvt` and `tWs` are the two wall-clock
samples taken by `publish_agent_event` and by the broadcast dict. -/
def pause_agent (st : Store) (agentId : String) (tEvt tWs : Int) :
    Except ApiErr AgentStatus × Store × Effects :=
  if rexists st (regKey agentId) then
    (Except.ok ⟨true, "Agent " ++ agentId ++ " paused"⟩,
     rset st (stateKey agentId) (RVal.s "paused"),
     ⟨[publish_agent_event "pause_requested" agentId tEvt [],
       (pauseCmdKey agentId, RVal.s "")],
      [statusChangedMsg agentId "paused" tWs]⟩)
  else (Except.error ApiErr.agentNotFound, st, emptyFx)

/-- `POST /api/agent/resume`. -/
def resume_agent (st : Store) (agentId : String) (tEvt tWs : Int) :
    Except ApiErr AgentStatus × Store × Effects :=
  if rexists st (regKey agentId) then
    (Except.ok ⟨true, "Agent " ++ agentId ++ " resumed"⟩,
     rset st (stateKey agentId) (RVal.s "running"),
     ⟨[publish_agent_event "resume_requested" agentId tEvt [],
       (resumeCmdKey agentId, RVal.s "")],
      [statusChangedMsg agentId "running" tWs]⟩)
  else (Except.error ApiErr.agentNotFound, st, emptyFx)

/-- `POST /api/agent/restart`. -/
def restart_agent (st : Store) (agentId : String) (tEvt tWs : Int) :
    Except ApiErr AgentStatus × Store × Effects :=
  if rexists st (regKey agentId) then
    (Except.ok ⟨true, "Agent " ++ agentId ++ " restarting"⟩,
     rset st (stateKey agentId) (RVal.s "initializing"),
     ⟨[publish_agent_event "restart_requested" agentId tEvt [],
       (restartCmdKey agentId, RVal.s "")],
      [statusChangedMsg agentId "initializing" tWs]⟩)
  else (Except.error ApiErr.agentNotFound, st, emptyFx)

/-- `GET /api/agent/config`: returns `{agentId, config}` with the
registration's `config` sub-document (default `{}`). -/
def get_agent_config (st : Store) (agentId : String) :
    Except ApiErr (String × Json) × Store × Effects :=
  match rget st (regKey agentId) with
  | none => (Except.error ApiErr.agentNotFound, st, emptyFx)
  | some rv =>
    if rvalFalsy rv then (Except.error ApiErr.agentNotFound, st, emptyFx)
    else match rvalToJson rv with
      | some (Json.obj fields) =>
          (Except.ok (agentId, (aget fields "config").getD (Json.obj [])), st, emptyFx)
      | _ => (Except.error ApiErr.pyError, st, emptyFx)

/-- `POST /api/agent/inject-config`.  The two publishes happen before
`json.loads`, so they are emitted even on a malformed registration. -/
def inject_config (st : Store) (agentId : String) (patch : List (String × Json))
    (tEvt tWs : Int) : Except ApiErr AgentStatus × Store × Effects :=
  match rget st (regKey agentId) with
  | none => (Except.error ApiErr.agentNotFound, st, emptyFx)
  | some rv =>
    if rvalFalsy rv then (Except.error ApiErr.agentNotFound, st, emptyFx)
    else
      let e1 := publish_agent_event "config_update_requested" agentId tEvt
        [("config", Json.obj patch)]
      let e2 := (injectCmdKey agentId, RVal.j (Json.obj patch))
      match rvalToJson rv with
      | some (Json.obj fields) =>
        let fields1 := if ahas fields "config" then fields
          else aset fields "config" (Json.obj [])
        match aget fields1 "config" with
        | some (Json.obj cfg) =>
          (Except.ok ⟨true, "Configuration injected into agent " ++ agentId⟩,
           rset st (regKey agentId)
             (RVal.j (Json.obj (aset fields1 "config" (Json.obj (deep_update cfg patch))))),
           ⟨[e1, e2], [configUpdatedMsg agentId tWs]⟩)
        | some _ =>
          -- existing `config` is not a document: the merge loop raises on
          -- its first assignment, except that an empty patch never loops
          if patch.isEmpty then
            (Except.ok ⟨true, "Configuration injected into agent " ++ agentId⟩,
             rset st (regKey agentId) (RVal.j (Json.obj fields1)),
             ⟨[e1, e2], [configUpdatedMsg agentId tWs]⟩)
          else (Except.error ApiErr.pyError, st, ⟨[e1, e2], []⟩)
        | none => (Except.error ApiErr.pyError, st, ⟨[e1, e2], []⟩)
      | _ => (Except.error ApiErr.pyError, st, ⟨[e1, e2], []⟩)

/-- The canary test from `promote_canary` and `list_agents`:
`exec_config.get("mode") == "canary" or exec_config.get("canaryMode", False)`
(the second operand by Python truthiness). -/
def isCanaryCfg (execCfg : List (String × Json)) : Bool :=
  (match aget execCfg "mode" with
   | some (Json.str m) => m = "canary"
   | _ => false) || jsonTruthy ((aget execCfg "canaryMode").getD (Json.bool false))

/-- `POST /api/agent/promote-canary`. -/
def promote_canary (st : Store) (agentId : String) (tEvt tWs : Int) :
    Except ApiErr AgentStatus × Store × Effects :=
  match rget st (regKey agentId) with
  | none => (Except.error ApiErr.agentNotFound, st, emptyFx)
  | some rv =>
    if rvalFalsy rv then (Except.error ApiErr.agentNotFound, st, emptyFx)
    else match rvalToJson rv with
      | some (Json.obj fields) =>
        match aget fields "config" with
        | none => (Except.error ApiErr.noExecutionConfig, st, emptyFx)
        | some (Json.obj cfg) =>
          match aget cfg "executionConfig" with
          | none => (Except.error ApiErr.noExecutionConfig, st, emptyFx)
          | some (Json.obj execCfg) =>
            if isCanaryCfg execCfg then
              let exec' := aset (aset execCfg "mode" (Json.str "live"))
                "canaryMode" (Json.bool false)
              (Except.ok ⟨true, "Agent " ++ agentId ++ " promoted from canary to live"⟩,
               rset st (regKey agentId)
                 (RVal.j (Json.obj (aset fields "config"
                   (Json.obj (aset cfg "executionConfig" (Json.obj exec')))))),
               ⟨[publish_agent_event "canary_promoted" agentId tEvt
                   [("newMode", Json.str "live")],
                 (injectCmdKey agentId,
                  RVal.j (Json.obj [("executionConfig", Json.obj exec')]))],
                [statusChangedMsg agentId "running" tWs]⟩)
            else (Except.error ApiErr.notInCanary, st, emptyFx)
          | some _ => (Except.error ApiErr.pyError, st, emptyFx)
        | some _ => (Except.error ApiErr.pyError, st, emptyFx)
      | _ => (Except.error ApiErr.pyError, st, emptyFx)

/-- One row of the `/api/agent/list` response (`AgentPanelState`).
`name`, `pnl24h` and `tags` keep the raw JSON values the code copies in
(response-model coercion is not modelled). -/
structure AgentPanelState where
  agentId : String
  name : Option Json
  status : String
  lastSignal : Int
  pnl24h : Json
  actions : List String
  tags : List Json
  lastUpdated : Int

/-- `agent_json.get("agentId", "unknown")`: absent → `"unknown"`; a
non-string identifier would fail response validation, skipping the row
(modelled as `none`). -/
def agentIdField (fields : List (String × Json)) : Option String :=
  match aget fields "agentId" with
  | some (Json.str s) => some s
  | none => some "unknown"
  | some _ => none

/-- `state_data.decode("utf-8") if state_data else "unknown"`: empty or
absent bytes → `"unknown"`; an integer string decodes to its digits; a
serialized JSON document under the state key is not modelled (row
skipped). -/
def stateValue : Option RVal → Option String
  | none => some "unknown"
  | some (RVal.s s) => some (if s = "" then "unknown" else s)
  | some (RVal.i n) => some (toString n)
  | some (RVal.j _) => none

/-- Raw-state-to-status mapping (before the canary override):
`paused`/`disabled` → `paused`, anything else → `running`. -/
def baseStatus (state : String) : String :=
  if state = "paused" then "paused"
  else if state = "disabled" then "paused"
  else "running"

/-- The canary-signal extraction from the registration:
`"config" in agent_json and "executionConfig" in agent_json["config"]`
followed by the mode/canaryMode test.  A non-document `executionConfig`
value makes `.get` raise (row skipped, `none`); a non-document `config`
value is modelled as no canary signal. -/
def canarySignal (fields : List (String × Json)) : Option Bool :=
  match aget fields "config" with
  | some (Json.obj cfg) =>
    match aget cfg "executionConfig" with
    | some (Json.obj execCfg) => some (isCanaryCfg execCfg)
    | some _ => none
    | none => some false
  | some _ => some false
  | none => some false

/-- `json.loads(metrics_data) if metrics_data else {}`, then the code
reads it as a dict; a non-document parse (or unparseable bytes) raises
and skips the row. -/
def metricsValue : Option RVal → Option (List (String × Json))
  | none => some []
  | some rv =>
    if rvalFalsy rv then some []
    else match rvalToJson rv with
      | some (Json.obj mf) => some mf
      | _ => none

/-- `int(last_signal) if last_signal else 0`; non-numeric bytes raise
(row skipped). -/
def lastSignalValue : Option RVal → Option Int
  | none => some 0
  | some rv =>
    if rvalFalsy rv then some 0
    else match rv with
      | RVal.i n => some n
      | RVal.s s => s.toInt?
      | RVal.j (Json.num n) => some n
      | RVal.j _ => none

/-- `metrics.get("pnl", 0.0)` with the nested
`metrics["custom"]["pnl_24h"]` override (only when `custom` is a
document holding that key). -/
def pnlValue (mf : List (String × Json)) : Json :=
  let base := (aget mf "pnl").getD (Json.num 0)
  match aget mf "custom" with
  | some (Json.obj cf) =>
    match aget cf "pnl_24h" with
    | some v => v
    | none => base
  | _ => base

/-- Action list per status (`list_agents` lines 269–275). -/
def actionsFor (status : String) : List String :=
  if status = "running" then ["pause", "restart"]
  else if status = "paused" then ["resume", "restart"]
  else if status = "canary" then ["promote", "pause", "restart"]
  else []

/-- Tag assembly: `canary`?, `paused`?, first two trading pairs
(iterating a JSON array, string or object the way Python would), then
`agentType`. -/
def tagsValue (isCanary : Bool) (status : String) (fields : List (String × Json)) :
    Option (List Json) :=
  let t0 := (if isCanary then [Json.str "canary"] else []) ++
    (if status = "paused" then [Json.str "paused"] else [])
  let tp : Option (List Json) :=
    match aget fields "tradingPairs" with
    | none => some []
    | some (Json.arr xs) => some (xs.take 2)
    | some (Json.str s) => some ((s.data.take 2).map (fun c => Json.str c.toString))
    | some (Json.obj fs) => some ((fs.take 2).map (fun p => Json.str p.1))
    | some _ => none
  tp.map (fun tps =>
    t0 ++ tps ++ (match aget fields "agentType" with | some v => [v] | none => []))

/-- The body of the `for reg_key in registrations:` loop in
`list_agents`, for one fetched registration value: `none` models the
`except`-and-skip path (and the `if agent_data:` guard). -/
def processRegistration (st : Store) (regVal : RVal) (now : Int) :
    Option AgentPanelState :=
  if rvalFalsy regVal then none
  else match rvalToJson regVal with
  | some (Json.obj fields) =>
    match agentIdField fields with
    | none => none
    | some agentId =>
      match stateValue (rget st (stateKey agentId)) with
      | none => none
      | some state =>
        match canarySignal fields with
        | none => none
        | some isCanary =>
          let status := if isCanary then "canary" else baseStatus state
          match metricsValue (rget st (metricsKey agentId)) with
          | none => none
          | some mf =>
            match lastSignalValue (rget st (lastSignalKey agentId)) with
            | none => none
            | some lastSig =>
              match tagsValue isCanary status fields with
              | none => none
              | some tags =>
                some { agentId := agentId, name := aget fields "name",
                       status := status, lastSignal := lastSig,
                       pnl24h := pnlValue mf, actions := actionsFor status,
                       tags := tags, lastUpdated := now }
  | _ => none

/-- `GET /api/agent/list`: enumerate the keys matching
`agent:*:registration`, fetch each, build a panel row, skipping
malformed rows.  All rows share one `now` sample. -/
def list_agents (st : Store) (now : Int) : List AgentPanelState :=
  ((st.map Prod.fst).filter matchesRegPattern).filterMap
    (fun k => (rget st k).bind (fun v => processRegistration st v now))

/-- The status derivation actually performed by `list_agents`: the
canary override is applied after (and over) the paused/disabled
mapping. -/
def derivedStatus (state : String) (isCanary : Bool) : String :=
  if isCanary then "canary" else baseStatus state

/-- `type` field test on an event/broadcast dict. -/
def hasType (m : Json) (ty : String) : Bool :=
  match m with
  | Json.obj fs =>
    match aget fs "type" with
    | some (Json.str s) => s = ty
    | _ => false
  | _ => false

/-- Timestamp field of an event/broadcast dict. -/
def msgTimestamp (m : Json) : Option Int :=
  match m with
  | Json.obj fs =>
    match aget fs "timestamp" with
    | some (Json.num t) => some t
    | _ => none
  | _ => none

/-- WebSocket broadcasts of one call with the given `type`. -/
def wsOfType (fx : Effects) (ty : String) : List Json :=
  fx.ws.filter (fun m => hasType m ty)

/-- Parsed messages published on the shared `agent_events` topic. -/
def topicMsgs (fx : Effects) : List Json :=
  (fx.pubs.filter (fun p => p.1 = "agent_events")).filterMap (fun p => rvalToJson p.2)

/-- Messages on the shared topic with the given `type`. -/
def topicOfType (fx : Effects) (ty : String) : List Json :=
  (topicMsgs fx).filter (fun m => hasType m ty)

-- The per-agent command channels are never the shared topic: their
-- names end in a different character than `agent_events`.
theorem pauseCmdKey_ne_topic (a : String) : pauseCmdKey a ≠ "agent_events" := by
  intro h
  have hdata : (pauseCmdKey a).data.getLast? = ("agent_events" : String).data.getLast? := by
    rw [h]
  rw [pauseCmdKey, strLast_append_right ("agent:" ++ a) ":pause" (by decide)] at hdata
  simp at hdata

theorem resumeCmdKey_ne_topic (a : String) : resumeCmdKey a ≠ "agent_events" := by
  intro h
  have hdata : (resumeCmdKey a).data.getLast? = ("agent_events" : String).data.getLast? := by
    rw [h]
  rw [resumeCmdKey, strLast_append_right ("agent:" ++ a) ":resume" (by decide)] at hdata
  simp at hdata

theorem restartCmdKey_ne_topic (a : String) : restartCmdKey a ≠ "agent_events" := by
  intro h
  have hdata : (restartCmdKey a).data.getLast? = ("agent_events" : String).data.getLast? := by
    rw [h]
  rw [restartCmdKey, strLast_append_right ("agent:" ++ a) ":restart" (by decide)] at hdata
  simp at hdata

theorem injectCmdKey_ne_topic (a : String) : injectCmdKey a ≠ "agent_events" := by
  intro h
  have hdata : (injectCmdKey a).data.getLast? = ("agent_events" : String).data.getLast? := by
    rw [h]
  rw [injectCmdKey, strLast_append_right ("agent:" ++ a) ":inject_config" (by decide)] at hdata
  simp at hdata

/-- C7: for every agentId with no registration document in the Store,
pause, resume, restart, getConfig, injectConfig and promoteCanary each
return AgentNotFound, publish no event on any topic (no Redis publish,
no WebSocket broadcast), and leave the Store unchanged. -/
theorem unknown_agent_not_found_no_effect (st : Store) (aid : String)
    (patch : List (String × Json)) (t1 t2 : Int)
    (h : rget st (regKey aid) = none) :
    pause_agent st aid t1 t2 = (Except.error ApiErr.agentNotFound, st, emptyFx) ∧
    resume_agent st aid t1 t2 = (Except.error ApiErr.agentNotFound, st, emptyFx) ∧
    restart_agent st aid t1 t2 = (Except.error ApiErr.agentNotFound, st, emptyFx) ∧
    get_agent_config st aid = (Except.error ApiErr.agentNotFound, st, emptyFx) ∧
    inject_config st aid patch t1 t2 = (Except.error ApiErr.agentNotFound, st, emptyFx) ∧
    promote_canary st aid t1 t2 = (Except.error ApiErr.agentNotFound, st, emptyFx) := by
  have hex : rexists st (regKey aid) = false := by
    rw [rexists]
    exact (aget_eq_none_iff_ahas st (regKey aid)).mp h
  refine ⟨?_, ?_, ?_, ?_, ?_, ?_⟩ <;>
    simp [pause_agent, resume_agent, restart_agent, get_agent_config,
      inject_config, promote_canary, hex, h]

/-- Witness for C7 at the empty store. -/
theorem unknown_agent_not_found_no_effect_witness :
    rget ([] : Store) (regKey "ghost") = none ∧
    (pause_agent [] "ghost" 0 0 = (Except.error ApiErr.agentNotFound, [], emptyFx) ∧
     resume_agent [] "ghost" 0 0 = (Except.error ApiErr.agentNotFound, [], emptyFx) ∧
     restart_agent [] "ghost" 0 0 = (Except.error ApiErr.agentNotFound, [], emptyFx) ∧
     get_agent_config [] "ghost" = (Except.error ApiErr.agentNotFound, [], emptyFx) ∧
     inject_config [] "ghost" [] 0 0 = (Except.error ApiErr.agentNotFound, [], emptyFx) ∧
     promote_canary [] "ghost" 0 0 = (Except.error ApiErr.agentNotFound, [], emptyFx)) :=
  ⟨rfl, unknown_agent_not_found_no_effect [] "ghost" [] 0 0 rfl⟩

/-- C8: for every agentId with an existing registration, pause writes
exactly the raw state `paused`, resume writes `running`, restart writes
`initializing` to that agent's state document, and none of the three
operations modifies the registration, metrics, or lastSignal documents
of any agent. -/
theorem lifecycle_state_writes_and_frame (st : Store) (aid : String) (t1 t2 : Int)
    (h : rexists st (regKey aid) = true) :
    (pause_agent st aid t1 t2).2.1 = rset st (stateKey aid) (RVal.s "paused") ∧
    (resume_agent st aid t1 t2).2.1 = rset st (stateKey aid) (RVal.s "running") ∧
    (restart_agent st aid t1 t2).2.1 = rset st (stateKey aid) (RVal.s "initializing") ∧
    (∀ a, rget (pause_agent st aid t1 t2).2.1 (regKey a) = rget st (regKey a) ∧
          rget (pause_agent st aid t1 t2).2.1 (metricsKey a) = rget st (metricsKey a) ∧
          rget (pause_agent st aid t1 t2).2.1 (lastSignalKey a) = rget st (lastSignalKey a) ∧
          rget (resume_agent st aid t1 t2).2.1 (regKey a) = rget st (regKey a) ∧
          rget (resume_agent st aid t1 t2).2.1 (metricsKey a) = rget st (metricsKey a) ∧
          rget (resume_agent st aid t1 t2).2.1 (lastSignalKey a) = rget st (lastSignalKey a) ∧
          rget (restart_agent st aid t1 t2).2.1 (regKey a) = rget st (regKey a) ∧
          rget (restart_agent st aid t1 t2).2.1 (metricsKey a) = rget st (metricsKey a) ∧
          rget (restart_agent st aid t1 t2).2.1 (lastSignalKey a) = rget st (lastSignalKey a)) := by
  have hp : (pause_agent st aid t1 t2).2.1 = rset st (stateKey aid) (RVal.s "paused") := by
    simp [pause_agent, h]
  have hr : (resume_agent st aid t1 t2).2.1 = rset st (stateKey aid) (RVal.s "running") := by
    simp [resume_agent, h]
  have hs : (restart_agent st aid t1 t2).2.1 = rset st (stateKey aid) (RVal.s "initializing") := by
    simp [restart_agent, h]
  refine ⟨hp, hr, hs, fun a => ?_⟩
  rw [hp, hr, hs]
  have hreg : ∀ v, rget (rset st (stateKey aid) v) (regKey a) = rget st (regKey a) :=
    fun v => aget_aset_ne st (stateKey aid) (regKey a) v (stateKey_ne_regKey aid a).symm
  have hmet : ∀ v, rget (rset st (stateKey aid) v) (metricsKey a) = rget st (metricsKey a) :=
    fun v => aget_aset_ne st (stateKey aid) (metricsKey a) v (stateKey_ne_metricsKey aid a).symm
  have hsig : ∀ v, rget (rset st (stateKey aid) v) (lastSignalKey a) = rget st (lastSignalKey a) :=
    fun v => aget_aset_ne st (stateKey aid) (lastSignalKey a) v (stateKey_ne_lastSignalKey aid a).symm
  exact ⟨hreg _, hmet _, hsig _, hreg _, hmet _, hsig _, hreg _, hmet _, hsig _⟩

/-- Witness for C8 on a one-agent store. -/
theorem lifecycle_state_writes_and_frame_witness :
    rexists [(regKey "w8", RVal.j (Json.obj [("agentId", Json.str "w8")]))] (regKey "w8") = true ∧
    ((pause_agent [(regKey "w8", RVal.j (Json.obj [("agentId", Json.str "w8")]))] "w8" 0 0).2.1 =
      rset [(regKey "w8", RVal.j (Json.obj [("agentId", Json.str "w8")]))] (stateKey "w8")
        (RVal.s "paused") ∧
     (resume_agent [(regKey "w8", RVal.j (Json.obj [("agentId", Json.str "w8")]))] "w8" 0 0).2.1 =
      rset [(regKey "w8", RVal.j (Json.obj [("agentId", Json.str "w8")]))] (stateKey "w8")
        (RVal.s "running") ∧
     (restart_agent [(regKey "w8", RVal.j (Json.obj [("agentId", Json.str "w8")]))] "w8" 0 0).2.1 =
      rset [(regKey "w8", RVal.j (Json.obj [("agentId", Json.str "w8")]))] (stateKey "w8")
        (RVal.s "initializing") ∧
     (∀ a, rget (pause_agent [(regKey "w8", RVal.j (Json.obj [("agentId", Json.str "w8")]))] "w8" 0 0).2.1 (regKey a) =
            rget [(regKey "w8", RVal.j (Json.obj [("agentId", Json.str "w8")]))] (regKey a) ∧
          rget (pause_agent [(regKey "w8", RVal.j (Json.obj [("agentId", Json.str "w8")]))] "w8" 0 0).2.1 (metricsKey a) =
            rget [(regKey "w8", RVal.j (Json.obj [("agentId", Json.str "w8")]))] (metricsKey a) ∧
          rget (pause_agent [(regKey "w8", RVal.j (Json.obj [("agentId", Json.str "w8")]))] "w8" 0 0).2.1 (lastSignalKey a) =
            rget [(regKey "w8", RVal.j (Json.obj [("agentId", Json.str "w8")]))] (lastSignalKey a) ∧
          rget (resume_agent [(regKey "w8", RVal.j (Json.obj [("agentId", Json.str "w8")]))] "w8" 0 0).2.1 (regKey a) =
            rget [(regKey "w8", RVal.j (Json.obj [("agentId", Json.str "w8")]))] (regKey a) ∧
          rget (resume_agent [(regKey "w8", RVal.j (Json.obj [("agentId", Json.str "w8")]))] "w8" 0 0).2.1 (metricsKey a) =
            rget [(regKey "w8", RVal.j (Json.obj [("agentId", Json.str "w8")]))] (metricsKey a) ∧
          rget (resume_agent [(regKey "w8", RVal.j (Json.obj [("agentId", Json.str "w8")]))] "w8" 0 0).2.1 (lastSignalKey a) =
            rget [(regKey "w8", RVal.j (Json.obj [("agentId", Json.str "w8")]))] (lastSignalKey a) ∧
          rget (restart_agent [(regKey "w8", RVal.j (Json.obj [("agentId", Json.str "w8")]))] "w8" 0 0).2.1 (regKey a) =
            rget [(regKey "w8", RVal.j (Json.obj [("agentId", Json.str "w8")]))] (regKey a) ∧
          rget (restart_agent [(regKey "w8", RVal.j (Json.obj [("agentId", Json.str "w8")]))] "w8" 0 0).2.1 (metricsKey a) =
            rget [(regKey "w8", RVal.j (Json.obj [("agentId", Json.str "w8")]))] (metricsKey a) ∧
          rget (restart_agent [(regKey "w8", RVal.j (Json.obj [("agentId", Json.str "w8")]))] "w8" 0 0).2.1 (lastSignalKey a) =
            rget [(regKey "w8", RVal.j (Json.obj [("agentId", Json.str "w8")]))] (lastSignalKey a))) :=
  ⟨rfl, lifecycle_state_writes_and_frame
    [(regKey "w8", RVal.j (Json.obj [("agentId", Json.str "w8")]))] "w8" 0 0 rfl⟩

theorem isCanaryCfg_after_promote (execCfg : List (String × Json)) :
    isCanaryCfg (aset (aset execCfg "mode" (Json.str "live"))
      "canaryMode" (Json.bool false)) = false := by
  have hmode : aget (aset (aset execCfg "mode" (Json.str "live"))
      "canaryMode" (Json.bool false)) "mode" = some (Json.str "live") := by
    rw [aget_aset_ne _ _ _ _ (by decide)]
    exact aget_aset_self _ _ _
  have hcm : aget (aset (aset execCfg "mode" (Json.str "live"))
      "canaryMode" (Json.bool false)) "canaryMode" = some (Json.bool false) :=
    aget_aset_self _ _ _
  rw [isCanaryCfg, hmode, hcm]
  simp [jsonTruthy]


/-- Inversion of a successful `promote_canary` call: the registration
was a well-shaped canary document and the persisted registration has the
promoted execution config. -/
theorem promote_canary_ok_inv (st : Store) (aid : String) (t1 t2 : Int)
    (r : AgentStatus) (st' : Store) (fx : Effects)
    (h : promote_canary st aid t1 t2 = (Except.ok r, st', fx)) :
    ∃ fields cfg execCfg,
      rget st (regKey aid) = some (RVal.j (Json.obj fields)) ∧
      aget fields "config" = some (Json.obj cfg) ∧
      aget cfg "executionConfig" = some (Json.obj execCfg) ∧
      isCanaryCfg execCfg = true ∧
      st' = rset st (regKey aid) (RVal.j (Json.obj (aset fields "config"
        (Json.obj (aset cfg "executionConfig" (Json.obj
          (aset (aset execCfg "mode" (Json.str "live"))
            "canaryMode" (Json.bool false))))))))  := by
  unfold promote_canary at h
  cases hr : rget st (regKey aid) with
  | none => rw [hr] at h; simp at h
  | some rv =>
    rw [hr] at h
    cases rv with
    | s sv =>
      by_cases hs : sv = "" <;> simp [rvalFalsy, rvalToJson, hs] at h
    | i n => simp [rvalFalsy, rvalToJson] at h
    | j jv =>
      cases jv with
      | obj fields =>
        simp only [rvalFalsy, rvalToJson] at h
        cases hcfg : aget fields "config" with
        | none => rw [hcfg] at h; simp at h
        | some cfgv =>
          rw [hcfg] at h
          cases cfgv with
          | obj cfg =>
            simp only [Bool.false_eq_true, if_false] at h
            cases hexec : aget cfg "executionConfig" with
            | none => rw [hexec] at h; simp at h
            | some execv =>
              rw [hexec] at h
              cases execv with
              | obj execCfg =>
                simp only [] at h
                by_cases hc : isCanaryCfg execCfg
                · rw [if_pos hc] at h
                  simp only [Prod.mk.injEq, Except.ok.injEq] at h
                  exact ⟨fields, cfg, execCfg, rfl, hcfg, hexec, hc, h.2.1.symm⟩
                · rw [if_neg hc] at h
                  simp at h
              | null => simp at h
              | bool b => simp at h
              | num n => simp at h
              | str s => simp at h
              | arr xs => simp at h
          | null => simp at h
          | bool b => simp at h
          | num n => simp at h
          | str s => simp at h
          | arr xs => simp at h
      | null => simp [rvalFalsy, rvalToJson] at h
      | bool b => simp [rvalFalsy, rvalToJson] at h
      | num n => simp [rvalFalsy, rvalToJson] at h
      | str s => simp [rvalFalsy, rvalToJson] at h
      | arr xs => simp [rvalFalsy, rvalToJson] at h

/-- C6: promoteCanary is idempotent-safe: right after a successful
promoteCanary on an agent, a second promoteCanary call on the same agent
(with no intervening writes) fails with NotInCanary rather than
succeeding, leaving the store unchanged and publishing nothing. -/
theorem promote_canary_idempotent_safe (st : Store) (aid : String)
    (t1 t2 t3 t4 : Int) (r : AgentStatus) (st' : Store) (fx : Effects)
    (h : promote_canary st aid t1 t2 = (Except.ok r, st', fx)) :
    promote_canary st' aid t3 t4 = (Except.error ApiErr.notInCanary, st', emptyFx) := by
  obtain ⟨fields, cfg, execCfg, hr, hcfg, hexec, hc, hst⟩ :=
    promote_canary_ok_inv st aid t1 t2 r st' fx h
  subst hst
  unfold promote_canary
  simp only [rget, rset, aget_aset_self, rvalFalsy, rvalToJson, Bool.false_eq_true,
    if_false, isCanaryCfg_after_promote]

/-- A one-canary-agent store used to witness the promotion claims. -/
def canaryStore6 : Store :=
  [(regKey "a", RVal.j (Json.obj [("agentId", Json.str "a"),
    ("config", Json.obj [("executionConfig", Json.obj [("mode", Json.str "canary")])])]))]

/-- Witness for C6: a concrete successful promotion whose repetition
fails with NotInCanary. -/
theorem promote_canary_idempotent_safe_witness :
    promote_canary canaryStore6 "a" 1 2 =
      (Except.ok ⟨true, "Agent a promoted from canary to live"⟩,
       (promote_canary canaryStore6 "a" 1 2).2.1,
       (promote_canary canaryStore6 "a" 1 2).2.2) ∧
    promote_canary (promote_canary canaryStore6 "a" 1 2).2.1 "a" 3 4 =
      (Except.error ApiErr.notInCanary,
       (promote_canary canaryStore6 "a" 1 2).2.1, emptyFx) :=
  ⟨rfl, promote_canary_idempotent_safe canaryStore6 "a" 1 2 3 4
    ⟨true, "Agent a promoted from canary to live"⟩ _ _ rfl⟩

/-- Characterization of a successful `inject_config` call on a
registration whose `config` is a document. -/
theorem inject_config_ok (st : Store) (aid : String) (patch : List (String × Json))
    (t1 t2 : Int) (fields cfg : List (String × Json))
    (hreg : rget st (regKey aid) = some (RVal.j (Json.obj fields)))
    (hcfg : aget fields "config" = some (Json.obj cfg)) :
    inject_config st aid patch t1 t2 =
      (Except.ok ⟨true, "Configuration injected into agent " ++ aid⟩,
       rset st (regKey aid)
         (RVal.j (Json.obj (aset fields "config" (Json.obj (deep_update cfg patch))))),
       ⟨[publish_agent_event "config_update_requested" aid t1 [("config", Json.obj patch)],
         (injectCmdKey aid, RVal.j (Json.obj patch))],
        [configUpdatedMsg aid t2]⟩) := by
  have hhas : ahas fields "config" = true := ahas_of_aget_eq_some _ _ _ hcfg
  unfold inject_config
  rw [hreg]
  simp only [rvalFalsy, rvalToJson, Bool.false_eq_true, if_false, hhas, if_true, hcfg]

/-- C2: injectConfig applies a recursive deep-merge of the patch into
the stored config (overlapping documents merged key-wise, everything
else replaced wholesale — the `mergeVal`/`deep_update` recursion), and
on the two reference examples: config `{a: {b: 1, c: 2}}` with patch
`{a: {b: 5}}` yields `{a: {b: 5, c: 2}}`, and with patch `{a: 9}`
yields `{a: 9}`. -/
theorem inject_config_deep_merge :
    (∀ (d u : List (String × Json)) (k : String), (u.map Prod.fst).Nodup →
       aget (deep_update d u) k =
         match aget u k with
         | none => aget d k
         | some uv => some (mergeVal (aget d k) uv)) ∧
    (∀ (st : Store) (aid : String) (fields : List (String × Json)) (t1 t2 : Int),
       rget st (regKey aid) = some (RVal.j (Json.obj fields)) →
       aget fields "config" =
         some (Json.obj [("a", Json.obj [("b", Json.num 1), ("c", Json.num 2)])]) →
       (inject_config st aid [("a", Json.obj [("b", Json.num 5)])] t1 t2).1 =
         Except.ok ⟨true, "Configuration injected into agent " ++ aid⟩ ∧
       (∃ fields',
          rget (inject_config st aid [("a", Json.obj [("b", Json.num 5)])] t1 t2).2.1
            (regKey aid) = some (RVal.j (Json.obj fields')) ∧
          aget fields' "config" =
            some (Json.obj [("a", Json.obj [("b", Json.num 5), ("c", Json.num 2)])]))) ∧
    (∀ (st : Store) (aid : String) (fields : List (String × Json)) (t1 t2 : Int),
       rget st (regKey aid) = some (RVal.j (Json.obj fields)) →
       aget fields "config" =
         some (Json.obj [("a", Json.obj [("b", Json.num 1), ("c", Json.num 2)])]) →
       (inject_config st aid [("a", Json.num 9)] t1 t2).1 =
         Except.ok ⟨true, "Configuration injected into agent " ++ aid⟩ ∧
       (∃ fields',
          rget (inject_config st aid [("a", Json.num 9)] t1 t2).2.1 (regKey aid) =
            some (RVal.j (Json.obj fields')) ∧
          aget fields' "config" = some (Json.obj [("a", Json.num 9)]))) := by
  have hmerge1 : deep_update [("a", Json.obj [("b", Json.num 1), ("c", Json.num 2)])]
      [("a", Json.obj [("b", Json.num 5)])] =
      [("a", Json.obj [("b", Json.num 5), ("c", Json.num 2)])] := by
    simp [deep_update_cons, deep_update_nil, mergeVal, aget, aset, ahas, areplace, List.find?]
  have hmerge2 : deep_update [("a", Json.obj [("b", Json.num 1), ("c", Json.num 2)])]
      [("a", Json.num 9)] = [("a", Json.num 9)] := by
    simp [deep_update_cons, deep_update_nil, mergeVal, aget, aset, ahas, areplace, List.find?]
  refine ⟨?_, ?_, ?_⟩
  · intro d u k hu
    exact deep_update_aget u hu d k
  · intro st aid fields t1 t2 hreg hcfg
    rw [inject_config_ok st aid _ t1 t2 fields _ hreg hcfg, hmerge1]
    exact ⟨rfl, aset fields "config" (Json.obj [("a", Json.obj [("b", Json.num 5), ("c", Json.num 2)])]),
      aget_aset_self _ _ _, aget_aset_self _ _ _⟩
  · intro st aid fields t1 t2 hreg hcfg
    rw [inject_config_ok st aid _ t1 t2 fields _ hreg hcfg, hmerge2]
    exact ⟨rfl, aset fields "config" (Json.obj [("a", Json.num 9)]),
      aget_aset_self _ _ _, aget_aset_self _ _ _⟩

def mergeStore2 : Store :=
  [(regKey "m", RVal.j (Json.obj [("agentId", Json.str "m"),
    ("config", Json.obj [("a", Json.obj [("b", Json.num 1), ("c", Json.num 2)])])]))]

/-- Witness for C2. -/
theorem inject_config_deep_merge_witness :
    ((([("a", Json.obj [("b", Json.num 5)])] : List (String × Json)).map Prod.fst).Nodup ∧
     aget (deep_update [("a", Json.obj [("b", Json.num 1), ("c", Json.num 2)])]
         [("a", Json.obj [("b", Json.num 5)])] ) "a" =
       match aget [("a", Json.obj [("b", Json.num 5)])] "a" with
       | none => aget [("a", Json.obj [("b", Json.num 1), ("c", Json.num 2)])] "a"
       | some uv =>
         some (mergeVal (aget [("a", Json.obj [("b", Json.num 1), ("c", Json.num 2)])] "a") uv)) ∧
    (rget mergeStore2 (regKey "m") = some (RVal.j (Json.obj [("agentId", Json.str "m"),
       ("config", Json.obj [("a", Json.obj [("b", Json.num 1), ("c", Json.num 2)])])])) ∧
     (inject_config mergeStore2 "m" [("a", Json.obj [("b", Json.num 5)])] 7 8).1 =
       Except.ok ⟨true, "Configuration injected into agent " ++ "m"⟩ ∧
     (∃ fields',
        rget (inject_config mergeStore2 "m" [("a", Json.obj [("b", Json.num 5)])] 7 8).2.1
          (regKey "m") = some (RVal.j (Json.obj fields')) ∧
        aget fields' "config" =
          some (Json.obj [("a", Json.obj [("b", Json.num 5), ("c", Json.num 2)])]))) ∧
    ((inject_config mergeStore2 "m" [("a", Json.num 9)] 7 8).1 =
       Except.ok ⟨true, "Configuration injected into agent " ++ "m"⟩ ∧
     (∃ fields',
        rget (inject_config mergeStore2 "m" [("a", Json.num 9)] 7 8).2.1 (regKey "m") =
          some (RVal.j (Json.obj fields')) ∧
        aget fields' "config" = some (Json.obj [("a", Json.num 9)]))) :=
  ⟨⟨by simp, inject_config_deep_merge.1 _ _ "a" (by simp)⟩,
   ⟨rfl, inject_config_deep_merge.2.1 mergeStore2 "m" _ 7 8 rfl rfl⟩,
   inject_config_deep_merge.2.2 mergeStore2 "m" _ 7 8 rfl rfl⟩

theorem areplace_of_ahas_false {α : Type} (d : List (String × α)) (k : String) (v : α)
    (h : ahas d k = false) : areplace d k v = d := by
  induction d with
  | nil => rfl
  | cons hd rest ih =>
    obtain ⟨k₁, v₁⟩ := hd
    rw [ahas_cons] at h
    by_cases h₁ : k₁ = k
    · simp [h₁] at h
    · rw [areplace_cons_ne _ _ _ _ _ h₁, ih (by simpa [h₁] using h)]

theorem areplace_eq_self {α : Type} (d : List (String × α)) (k : String) (v : α)
    (hn : (d.map Prod.fst).Nodup) (h : aget d k = some v) : areplace d k v = d := by
  induction d with
  | nil => cases h
  | cons hd rest ih =>
    obtain ⟨k₁, v₁⟩ := hd
    have hn' : (rest.map Prod.fst).Nodup := (List.nodup_cons.mp (by simpa using hn)).2
    by_cases h₁ : k₁ = k
    · subst h₁
      rw [aget_cons] at h
      simp at h
      subst h
      rw [areplace_cons_self]
      have hmem : k₁ ∉ rest.map Prod.fst := (List.nodup_cons.mp (by simpa using hn)).1
      rw [areplace_of_ahas_false rest k₁ _ (by
        cases hh : ahas rest k₁
        · rfl
        · exact absurd ((ahas_iff_mem_keys rest k₁).mp hh) hmem)]
    · rw [aget_cons] at h
      simp only [h₁, if_false] at h
      rw [areplace_cons_ne _ _ _ _ _ h₁, ih hn' h]

theorem aset_self_id {α : Type} (d : List (String × α)) (k : String) (v : α)
    (hn : (d.map Prod.fst).Nodup) (h : aget d k = some v) : aset d k v = d := by
  rw [aset_eq, if_pos (ahas_of_aget_eq_some _ _ _ h)]
  exact areplace_eq_self d k v hn h

/-- C9: the empty patch is an identity for the deep-merge: for every
registration that already has a config document,
`injectConfig(agentId, {})` succeeds, leaves the stored config exactly
unchanged, and still publishes the `config_update_requested` event on
the shared topic and the raw patch on the agent command channel. -/
theorem inject_config_empty_patch_identity (st : Store) (aid : String) (t1 t2 : Int)
    (fields cfg : List (String × Json))
    (hn : (fields.map Prod.fst).Nodup)
    (hreg : rget st (regKey aid) = some (RVal.j (Json.obj fields)))
    (hcfg : aget fields "config" = some (Json.obj cfg)) :
    (inject_config st aid [] t1 t2).1 =
      Except.ok ⟨true, "Configuration injected into agent " ++ aid⟩ ∧
    rget (inject_config st aid [] t1 t2).2.1 (regKey aid) = rget st (regKey aid) ∧
    topicOfType (inject_config st aid [] t1 t2).2.2 "config_update_requested" =
      [eventMsg "config_update_requested" aid t1 [("config", Json.obj [])]] ∧
    (injectCmdKey aid, RVal.j (Json.obj [])) ∈ (inject_config st aid [] t1 t2).2.2.pubs := by
  rw [inject_config_ok st aid [] t1 t2 fields cfg hreg hcfg, deep_update_nil,
    aset_self_id fields "config" (Json.obj cfg) hn hcfg]
  have hne := injectCmdKey_ne_topic aid
  refine ⟨rfl, ?_, ?_, ?_⟩
  · rw [show rget (rset st (regKey aid) (RVal.j (Json.obj fields))) (regKey aid) =
        some (RVal.j (Json.obj fields)) from aget_aset_self _ _ _, hreg]
  · simp [topicOfType, topicMsgs, List.filter_cons, hne, rvalToJson, publish_agent_event,
      hasType, eventMsg, aget, ahas, aset, List.find?]
  · simp [publish_agent_event]

def identityStore9 : Store :=
  [(regKey "q", RVal.j (Json.obj [("agentId", Json.str "q"),
    ("config", Json.obj [("x", Json.num 3)])]))]

/-- Witness for C9. -/
theorem inject_config_empty_patch_identity_witness :
    (([("agentId", Json.str "q"), ("config", Json.obj [("x", Json.num 3)])].map
       (Prod.fst (β := Json))).Nodup ∧
     rget identityStore9 (regKey "q") = some (RVal.j (Json.obj [("agentId", Json.str "q"),
       ("config", Json.obj [("x", Json.num 3)])]))) ∧
    (inject_config identityStore9 "q" [] 4 5).1 =
      Except.ok ⟨true, "Configuration injected into agent " ++ "q"⟩ ∧
    rget (inject_config identityStore9 "q" [] 4 5).2.1 (regKey "q") =
      rget identityStore9 (regKey "q") ∧
    topicOfType (inject_config identityStore9 "q" [] 4 5).2.2 "config_update_requested" =
      [eventMsg "config_update_requested" "q" 4 [("config", Json.obj [])]] ∧
    (injectCmdKey "q", RVal.j (Json.obj [])) ∈
      (inject_config identityStore9 "q" [] 4 5).2.2.pubs :=
  ⟨⟨by decide, rfl⟩,
   inject_config_empty_patch_identity identityStore9 "q" 4 5 _ _ (by decide) rfl rfl⟩

def authStore5 : Store :=
  [(regKey "a", RVal.j (Json.obj [("agentId", Json.str "a")]))]

/-- C5 (code bug exhibit): the route functions take no credential at
all — `verify_token` is not among their dependencies — so a pause call
with no token succeeds, writes the store and publishes events. -/
theorem mutating_ops_not_auth_gated :
    (pause_agent authStore5 "a" 1 2).1 = Except.ok ⟨true, "Agent a paused"⟩ ∧
    rget (pause_agent authStore5 "a" 1 2).2.1 (stateKey "a") = some (RVal.s "paused") ∧
    (pause_agent authStore5 "a" 1 2).2.2.pubs =
      [publish_agent_event "pause_requested" "a" 1 [], (pauseCmdKey "a", RVal.s "")] ∧
    (pause_agent authStore5 "a" 1 2).2.2.ws = [statusChangedMsg "a" "paused" 2] :=
  ⟨rfl, rfl, rfl, rfl⟩

/-- Full characterization of a successful `promote_canary` call. -/
theorem promote_canary_ok_char (st : Store) (aid : String) (t1 t2 : Int)
    (fields cfg execCfg : List (String × Json))
    (hr : rget st (regKey aid) = some (RVal.j (Json.obj fields)))
    (hcfg : aget fields "config" = some (Json.obj cfg))
    (hexec : aget cfg "executionConfig" = some (Json.obj execCfg))
    (hc : isCanaryCfg execCfg = true) :
    promote_canary st aid t1 t2 =
      (Except.ok ⟨true, "Agent " ++ aid ++ " promoted from canary to live"⟩,
       rset st (regKey aid)
         (RVal.j (Json.obj (aset fields "config" (Json.obj (aset cfg "executionConfig"
           (Json.obj (aset (aset execCfg "mode" (Json.str "live"))
             "canaryMode" (Json.bool false)))))))),
       ⟨[publish_agent_event "canary_promoted" aid t1 [("newMode", Json.str "live")],
         (injectCmdKey aid, RVal.j (Json.obj [("executionConfig",
           Json.obj (aset (aset execCfg "mode" (Json.str "live"))
             "canaryMode" (Json.bool false)))]))],
        [statusChangedMsg aid "running" t2]⟩) := by
  unfold promote_canary
  rw [hr]
  simp only [rvalFalsy, rvalToJson, Bool.false_eq_true, if_false, hcfg, hexec, hc, if_true]

/-- C4 (amended): every successful pause, resume, restart, or
promoteCanary call produces exactly one `agent_status_changed` message,
delivered via the direct WebSocket broadcast — not on the shared
`agent_events` topic — carrying the new status and a timestamp ≥ the
call start time; promoteCanary additionally publishes exactly one
`canary_promoted` event on the shared topic with a timestamp ≥ the call
start time. -/
theorem status_change_events_amended (st : Store) (aid : String) (t0 tE tW : Int)
    (hE : t0 ≤ tE) (hW : t0 ≤ tW) :
    (∀ r st' fx, pause_agent st aid tE tW = (Except.ok r, st', fx) →
       wsOfType fx "agent_status_changed" = [statusChangedMsg aid "paused" tW] ∧
       topicOfType fx "agent_status_changed" = [] ∧
       msgTimestamp (statusChangedMsg aid "paused" tW) = some tW ∧ t0 ≤ tW) ∧
    (∀ r st' fx, resume_agent st aid tE tW = (Except.ok r, st', fx) →
       wsOfType fx "agent_status_changed" = [statusChangedMsg aid "running" tW] ∧
       topicOfType fx "agent_status_changed" = [] ∧
       msgTimestamp (statusChangedMsg aid "running" tW) = some tW ∧ t0 ≤ tW) ∧
    (∀ r st' fx, restart_agent st aid tE tW = (Except.ok r, st', fx) →
       wsOfType fx "agent_status_changed" = [statusChangedMsg aid "initializing" tW] ∧
       topicOfType fx "agent_status_changed" = [] ∧
       msgTimestamp (statusChangedMsg aid "initializing" tW) = some tW ∧ t0 ≤ tW) ∧
    (∀ r st' fx, promote_canary st aid tE tW = (Except.ok r, st', fx) →
       wsOfType fx "agent_status_changed" = [statusChangedMsg aid "running" tW] ∧
       topicOfType fx "agent_status_changed" = [] ∧
       topicOfType fx "canary_promoted" =
         [eventMsg "canary_promoted" aid tE [("newMode", Json.str "live")]] ∧
       msgTimestamp (statusChangedMsg aid "running" tW) = some tW ∧
       msgTimestamp (eventMsg "canary_promoted" aid tE [("newMode", Json.str "live")]) =
         some tE ∧
       t0 ≤ tW ∧ t0 ≤ tE) := by
  have hpne := pauseCmdKey_ne_topic aid
  have hrne := resumeCmdKey_ne_topic aid
  have hsne := restartCmdKey_ne_topic aid
  have hine := injectCmdKey_ne_topic aid
  refine ⟨?_, ?_, ?_, ?_⟩
  · intro r st' fx h
    cases hex : rexists st (regKey aid) with
    | false =>
      unfold pause_agent at h
      rw [hex] at h
      simp at h
    | true =>
      have hchar : pause_agent st aid tE tW =
          (Except.ok ⟨true, "Agent " ++ aid ++ " paused"⟩,
           rset st (stateKey aid) (RVal.s "paused"),
           ⟨[publish_agent_event "pause_requested" aid tE [], (pauseCmdKey aid, RVal.s "")],
            [statusChangedMsg aid "paused" tW]⟩) := by
        simp [pause_agent, hex]
      have hfx : fx = ⟨[publish_agent_event "pause_requested" aid tE [],
          (pauseCmdKey aid, RVal.s "")], [statusChangedMsg aid "paused" tW]⟩ :=
        (congrArg (fun p => p.2.2) (hchar.symm.trans h)).symm
      subst hfx
      refine ⟨?_, ?_, rfl, hW⟩
      · simp [wsOfType, hasType, statusChangedMsg, aget, List.find?]
      · simp [topicOfType, topicMsgs, List.filter_cons, hpne, publish_agent_event,
          rvalToJson, hasType, eventMsg, aget, List.find?]
  · intro r st' fx h
    cases hex : rexists st (regKey aid) with
    | false =>
      unfold resume_agent at h
      rw [hex] at h
      simp at h
    | true =>
      have hchar : resume_agent st aid tE tW =
          (Except.ok ⟨true, "Agent " ++ aid ++ " resumed"⟩,
           rset st (stateKey aid) (RVal.s "running"),
           ⟨[publish_agent_event "resume_requested" aid tE [], (resumeCmdKey aid, RVal.s "")],
            [statusChangedMsg aid "running" tW]⟩) := by
        simp [resume_agent, hex]
      have hfx : fx = ⟨[publish_agent_event "resume_requested" aid tE [],
          (resumeCmdKey aid, RVal.s "")], [statusChangedMsg aid "running" tW]⟩ :=
        (congrArg (fun p => p.2.2) (hchar.symm.trans h)).symm
      subst hfx
      refine ⟨?_, ?_, rfl, hW⟩
      · simp [wsOfType, hasType, statusChangedMsg, aget, List.find?]
      · simp [topicOfType, topicMsgs, List.filter_cons, hrne, publish_agent_event,
          rvalToJson, hasType, eventMsg, aget, List.find?]
  · intro r st' fx h
    cases hex : rexists st (regKey aid) with
    | false =>
      unfold restart_agent at h
      rw [hex] at h
      simp at h
    | true =>
      have hchar : restart_agent st aid tE tW =
          (Except.ok ⟨true, "Agent " ++ aid ++ " restarting"⟩,
           rset st (stateKey aid) (RVal.s "initializing"),
           ⟨[publish_agent_event "restart_requested" aid tE [], (restartCmdKey aid, RVal.s "")],
            [statusChangedMsg aid "initializing" tW]⟩) := by
        simp [restart_agent, hex]
      have hfx : fx = ⟨[publish_agent_event "restart_requested" aid tE [],
          (restartCmdKey aid, RVal.s "")], [statusChangedMsg aid "initializing" tW]⟩ :=
        (congrArg (fun p => p.2.2) (hchar.symm.trans h)).symm
      subst hfx
      refine ⟨?_, ?_, rfl, hW⟩
      · simp [wsOfType, hasType, statusChangedMsg, aget, List.find?]
      · simp [topicOfType, topicMsgs, List.filter_cons, hsne, publish_agent_event,
          rvalToJson, hasType, eventMsg, aget, List.find?]
  · intro r st' fx h
    obtain ⟨fields, cfg, execCfg, hr, hcfg, hexec, hc, -⟩ :=
      promote_canary_ok_inv st aid tE tW r st' fx h
    have hchar := promote_canary_ok_char st aid tE tW fields cfg execCfg hr hcfg hexec hc
    have hfx : fx = ⟨[publish_agent_event "canary_promoted" aid tE [("newMode", Json.str "live")],
        (injectCmdKey aid, RVal.j (Json.obj [("executionConfig",
          Json.obj (aset (aset execCfg "mode" (Json.str "live"))
            "canaryMode" (Json.bool false)))]))],
        [statusChangedMsg aid "running" tW]⟩ :=
      (congrArg (fun p => p.2.2) (hchar.symm.trans h)).symm
    subst hfx
    refine ⟨?_, ?_, ?_, rfl, ?_, hW, hE⟩
    · simp [wsOfType, hasType, statusChangedMsg, aget, List.find?]
    · simp [topicOfType, topicMsgs, List.filter_cons, hine, publish_agent_event,
        rvalToJson, hasType, eventMsg, aget, aset, ahas, List.find?]
    · simp [topicOfType, topicMsgs, List.filter_cons, hine, publish_agent_event,
        rvalToJson, hasType, eventMsg, aget, aset, ahas, List.find?]
    · simp [msgTimestamp, eventMsg, aget, aset, ahas, List.find?]

def eventStore4 : Store :=
  [(regKey "a", RVal.j (Json.obj [("agentId", Json.str "a")]))]

def canaryStore4 : Store :=
  [(regKey "a", RVal.j (Json.obj [("agentId", Json.str "a"),
    ("config", Json.obj [("executionConfig", Json.obj [("canaryMode", Json.bool true)])])]))]

/-- C4 counterexample: a successful pause call publishes zero
`agent_status_changed` events on the shared `agent_events` topic (only
`pause_requested` goes there); the status-change message is broadcast
directly to WebSocket clients instead. -/
theorem status_event_on_topic_cex :
    (pause_agent eventStore4 "a" 5 9).1 = Except.ok ⟨true, "Agent a paused"⟩ ∧
    topicOfType (pause_agent eventStore4 "a" 5 9).2.2 "agent_status_changed" = [] ∧
    topicOfType (pause_agent eventStore4 "a" 5 9).2.2 "pause_requested" =
      [eventMsg "pause_requested" "a" 5 []] ∧
    wsOfType (pause_agent eventStore4 "a" 5 9).2.2 "agent_status_changed" =
      [statusChangedMsg "a" "paused" 9] :=
  ⟨rfl, rfl, rfl, rfl⟩

/-- Witness for the amended C4 at concrete stores. -/
theorem status_change_events_amended_witness :
    (pause_agent eventStore4 "a" 5 9).1 = Except.ok ⟨true, "Agent a paused"⟩ ∧
    (wsOfType (pause_agent eventStore4 "a" 5 9).2.2 "agent_status_changed" =
       [statusChangedMsg "a" "paused" 9] ∧
     topicOfType (pause_agent eventStore4 "a" 5 9).2.2 "agent_status_changed" = [] ∧
     msgTimestamp (statusChangedMsg "a" "paused" 9) = some 9 ∧ (0 : Int) ≤ 9) ∧
    ((promote_canary canaryStore4 "a" 5 9).1 =
       Except.ok ⟨true, "Agent a promoted from canary to live"⟩ ∧
     (wsOfType (promote_canary canaryStore4 "a" 5 9).2.2 "agent_status_changed" =
        [statusChangedMsg "a" "running" 9] ∧
      topicOfType (promote_canary canaryStore4 "a" 5 9).2.2 "agent_status_changed" = [] ∧
      topicOfType (promote_canary canaryStore4 "a" 5 9).2.2 "canary_promoted" =
        [eventMsg "canary_promoted" "a" 5 [("newMode", Json.str "live")]] ∧
      msgTimestamp (statusChangedMsg "a" "running" 9) = some 9 ∧
      msgTimestamp (eventMsg "canary_promoted" "a" 5 [("newMode", Json.str "live")]) =
        some 5 ∧
      (0 : Int) ≤ 9 ∧ (0 : Int) ≤ 5)) :=
  ⟨rfl,
   (status_change_events_amended eventStore4 "a" 0 5 9 (by decide) (by decide)).1 _ _ _ rfl,
   rfl,
   (status_change_events_amended canaryStore4 "a" 0 5 9 (by decide) (by decide)).2.2.2 _ _ _ rfl⟩

/-- Inversion of one successful `list_agents` loop iteration: the
status is the canary-overridden function of the raw state, and the
actions are determined by the status. -/
theorem processRegistration_status (st : Store) (regVal : RVal) (now : Int)
    (panel : AgentPanelState)
    (h : processRegistration st regVal now = some panel) :
    ∃ fields state isCanary,
      rvalToJson regVal = some (Json.obj fields) ∧
      agentIdField fields = some panel.agentId ∧
      stateValue (rget st (stateKey panel.agentId)) = some state ∧
      canarySignal fields = some isCanary ∧
      panel.status = derivedStatus state isCanary ∧
      panel.actions = actionsFor panel.status := by
  unfold processRegistration at h
  by_cases hf : rvalFalsy regVal = true
  · simp [hf] at h
  · have hf' : rvalFalsy regVal = false := by
      cases hh : rvalFalsy regVal
      · rfl
      · exact absurd hh hf
    simp only [hf', Bool.false_eq_true, if_false] at h
    cases hj : rvalToJson regVal with
    | none => rw [hj] at h; simp at h
    | some j =>
      rw [hj] at h
      cases j with
      | obj fields =>
        simp only [] at h
        cases hid : agentIdField fields with
        | none => rw [hid] at h; simp at h
        | some agentId =>
          rw [hid] at h
          simp only [] at h
          cases hstv : stateValue (rget st (stateKey agentId)) with
          | none => rw [hstv] at h; simp at h
          | some state =>
            rw [hstv] at h
            simp only [] at h
            cases hcs : canarySignal fields with
            | none => rw [hcs] at h; simp at h
            | some isCanary =>
              rw [hcs] at h
              simp only [] at h
              cases hmv : metricsValue (rget st (metricsKey agentId)) with
              | none => rw [hmv] at h; simp at h
              | some mf =>
                rw [hmv] at h
                simp only [] at h
                cases hlsv : lastSignalValue (rget st (lastSignalKey agentId)) with
                | none => rw [hlsv] at h; simp at h
                | some lastSig =>
                  rw [hlsv] at h
                  simp only [] at h
                  cases htv : tagsValue isCanary
                      (if isCanary = true then "canary" else baseStatus state) fields with
                  | none => rw [htv] at h; simp at h
                  | some tags =>
                    rw [htv] at h
                    simp only [Option.some.injEq] at h
                    subst h
                    exact ⟨fields, state, isCanary, rfl, hid, hstv, hcs, rfl, rfl⟩
      | null => simp at h
      | bool b => simp at h
      | num n => simp at h
      | str s => simp at h
      | arr xs => simp at h

/-- C1 (amended): for every agent enumerated by list(), the derived
status and actions are a pure function of the raw stored state and the
registration's canary signal, with the canary test taking precedence:
if executionConfig.mode == "canary" or canaryMode is truthy the status
is `canary` (even when the raw state is `paused`/`disabled`) with
actions exactly {promote, pause, restart}; otherwise raw state
`paused`/`disabled` gives status `paused` with actions exactly
{resume, restart}; otherwise status `running` with actions exactly
{pause, restart}. -/
theorem list_status_actions_amended (st : Store) (now : Int) (panel : AgentPanelState)
    (h : panel ∈ list_agents st now) :
    ∃ k regVal fields state isCanary,
      k ∈ (st.map Prod.fst).filter matchesRegPattern ∧
      rget st k = some regVal ∧
      rvalToJson regVal = some (Json.obj fields) ∧
      agentIdField fields = some panel.agentId ∧
      stateValue (rget st (stateKey panel.agentId)) = some state ∧
      canarySignal fields = some isCanary ∧
      panel.status = derivedStatus state isCanary ∧
      panel.actions = actionsFor panel.status ∧
      (panel.status = "canary" → panel.actions = ["promote", "pause", "restart"]) ∧
      (panel.status = "paused" → panel.actions = ["resume", "restart"]) ∧
      (panel.status = "running" → panel.actions = ["pause", "restart"]) := by
  unfold list_agents at h
  obtain ⟨k, hk, he⟩ := List.mem_filterMap.mp h
  cases hrv : rget st k with
  | none => rw [hrv] at he; simp at he
  | some regVal =>
    rw [hrv] at he
    simp only [Option.some_bind] at he
    obtain ⟨fields, state, isCanary, hj, hid, hstv, hcs, hstat, hact⟩ :=
      processRegistration_status st regVal now panel he
    refine ⟨k, regVal, fields, state, isCanary, hk, hrv, hj, hid, hstv, hcs, hstat, hact,
      ?_, ?_, ?_⟩
    · intro hs
      rw [hact, hs]
      rfl
    · intro hs
      rw [hact, hs]
      rfl
    · intro hs
      rw [hact, hs]
      rfl

def canaryPausedStore1 : Store :=
  [(regKey "a1", RVal.j (Json.obj [("agentId", Json.str "a1"),
    ("config", Json.obj [("executionConfig", Json.obj [("mode", Json.str "canary")])])])),
   (stateKey "a1", RVal.s "paused")]

/-- C1 counterexample: an agent with raw stored state `paused` and a
canary execution config is listed with status `canary` and actions
{promote, pause, restart}, not status `paused` with {resume, restart}
as the claim requires. -/
theorem list_status_paused_precedence_cex :
    rget canaryPausedStore1 (stateKey "a1") = some (RVal.s "paused") ∧
    (list_agents canaryPausedStore1 0).map AgentPanelState.status = ["canary"] ∧
    (list_agents canaryPausedStore1 0).map AgentPanelState.actions =
      [["promote", "pause", "restart"]] :=
  ⟨rfl, rfl, rfl⟩

def panelC1 : AgentPanelState :=
  { agentId := "a1", name := none, status := "canary", lastSignal := 0,
    pnl24h := Json.num 0, actions := ["promote", "pause", "restart"],
    tags := [Json.str "canary"], lastUpdated := 0 }

/-- Witness for the amended C1 on a concrete paused canary agent. -/
theorem list_status_actions_amended_witness :
    panelC1 ∈ list_agents canaryPausedStore1 0 ∧
    (∃ k regVal fields state isCanary,
      k ∈ (canaryPausedStore1.map Prod.fst).filter matchesRegPattern ∧
      rget canaryPausedStore1 k = some regVal ∧
      rvalToJson regVal = some (Json.obj fields) ∧
      agentIdField fields = some panelC1.agentId ∧
      stateValue (rget canaryPausedStore1 (stateKey panelC1.agentId)) = some state ∧
      canarySignal fields = some isCanary ∧
      panelC1.status = derivedStatus state isCanary ∧
      panelC1.actions = actionsFor panelC1.status ∧
      (panelC1.status = "canary" → panelC1.actions = ["promote", "pause", "restart"]) ∧
      (panelC1.status = "paused" → panelC1.actions = ["resume", "restart"]) ∧
      (panelC1.status = "running" → panelC1.actions = ["pause", "restart"])) :=
  ⟨by
     rw [show list_agents canaryPausedStore1 0 = [panelC1] from rfl]
     exact List.mem_singleton_self _,
   list_status_actions_amended canaryPausedStore1 0 panelC1 (by
     rw [show list_agents canaryPausedStore1 0 = [panelC1] from rfl]
     exact List.mem_singleton_self _)⟩

/-- The `executionConfig` sub-document of a registration, when both
`config` and `executionConfig` are present documents. -/
def execCfgOf (fields : List (String × Json)) : Option (List (String × Json)) :=
  match aget fields "config" with
  | some (Json.obj cfg) =>
    match aget cfg "executionConfig" with
    | some (Json.obj e) => some e
    | _ => none
  | _ => none

/-- Well-formedness of a `canaryMode` entry: absent or boolean, per the
data model. -/
def WfCanaryMode (e : List (String × Json)) : Prop :=
  match aget e "canaryMode" with
  | none => True
  | some (Json.bool _) => True
  | some _ => False

/-- Well-formedness of a stored registration value: absent, or a JSON
document whose `config` (when present) is a document, whose
`executionConfig` (when present) is a document, with boolean
`canaryMode` (when present).  This matches the data model; outside it
the Python code raises instead of returning a structured error. -/
def WfRegVal : Option RVal → Prop
  | none => True
  | some (RVal.j (Json.obj fields)) =>
    (match aget fields "config" with
     | none => True
     | some (Json.obj cfg) =>
       (match aget cfg "executionConfig" with
        | none => True
        | some (Json.obj e) => WfCanaryMode e
        | some _ => False)
     | some _ => False)
  | some _ => False

theorem isCanaryCfg_false_not (e : List (String × Json))
    (hc : isCanaryCfg e = false) :
    ¬ aget e "mode" = some (Json.str "canary") ∧
    ¬ aget e "canaryMode" = some (Json.bool true) := by
  unfold isCanaryCfg at hc
  rw [Bool.or_eq_false_iff] at hc
  obtain ⟨h1, h2⟩ := hc
  constructor
  · intro hm
    rw [hm] at h1
    simp at h1
  · intro hm
    rw [hm] at h2
    simp [jsonTruthy] at h2

theorem isCanaryCfg_true_cases (e : List (String × Json)) (hwf : WfCanaryMode e)
    (hc : isCanaryCfg e = true) :
    aget e "mode" = some (Json.str "canary") ∨
    aget e "canaryMode" = some (Json.bool true) := by
  unfold isCanaryCfg at hc
  rw [Bool.or_eq_true] at hc
  cases hc with
  | inl h1 =>
    left
    cases hm : aget e "mode" with
    | none => rw [hm] at h1; simp at h1
    | some v =>
      rw [hm] at h1
      cases v with
      | str s =>
        simp only [decide_eq_true_eq] at h1
        rw [h1]
      | null => simp at h1
      | bool b => simp at h1
      | num n => simp at h1
      | arr xs => simp at h1
      | obj fs => simp at h1
  | inr h2 =>
    right
    unfold WfCanaryMode at hwf
    cases hm : aget e "canaryMode" with
    | none => rw [hm] at h2; simp [jsonTruthy] at h2
    | some v =>
      rw [hm] at h2
      rw [hm] at hwf
      cases v with
      | bool b =>
        cases b with
        | true => rfl
        | false => simp [jsonTruthy] at h2
      | null => exact hwf.elim
      | num n => exact hwf.elim
      | str s => exact hwf.elim
      | arr xs => exact hwf.elim
      | obj fs => exact hwf.elim

/-- C3: on well-formed registrations, promoteCanary fails with
AgentNotFound iff no registration document exists; fails with
NoExecutionConfig iff the registration exists but its config lacks an
executionConfig sub-document; fails with NotInCanary iff executionConfig
exists but neither mode == "canary" nor canaryMode == true holds; and on
success the persisted registration has executionConfig.mode == "live"
and executionConfig.canaryMode == false. -/
theorem promote_canary_error_conditions (st : Store) (aid : String) (t1 t2 : Int)
    (hwf : WfRegVal (rget st (regKey aid))) :
    ((promote_canary st aid t1 t2).1 = Except.error ApiErr.agentNotFound ↔
       rget st (regKey aid) = none) ∧
    ((promote_canary st aid t1 t2).1 = Except.error ApiErr.noExecutionConfig ↔
       (∃ fields, rget st (regKey aid) = some (RVal.j (Json.obj fields)) ∧
          execCfgOf fields = none)) ∧
    ((promote_canary st aid t1 t2).1 = Except.error ApiErr.notInCanary ↔
       (∃ fields execCfg, rget st (regKey aid) = some (RVal.j (Json.obj fields)) ∧
          execCfgOf fields = some execCfg ∧
          ¬ aget execCfg "mode" = some (Json.str "canary") ∧
          ¬ aget execCfg "canaryMode" = some (Json.bool true))) ∧
    (∀ r st' fx, promote_canary st aid t1 t2 = (Except.ok r, st', fx) →
       ∃ fields' execCfg',
         rget st' (regKey aid) = some (RVal.j (Json.obj fields')) ∧
         execCfgOf fields' = some execCfg' ∧
         aget execCfg' "mode" = some (Json.str "live") ∧
         aget execCfg' "canaryMode" = some (Json.bool false)) := by
  cases hr : rget st (regKey aid) with
  | none =>
    have hres : promote_canary st aid t1 t2 = (Except.error ApiErr.agentNotFound, st, emptyFx) := by
      unfold promote_canary
      rw [hr]
    refine ⟨by simp [hres, hr], by simp [hres, hr], by simp [hres, hr], ?_⟩
    intro r st' fx hok
    rw [hres] at hok
    simp at hok
  | some rv =>
    rw [hr] at hwf
    cases rv with
    | s sv => exact hwf.elim
    | i n => exact hwf.elim
    | j jv =>
      cases jv with
      | null => exact hwf.elim
      | bool b => exact hwf.elim
      | num n => exact hwf.elim
      | str s => exact hwf.elim
      | arr xs => exact hwf.elim
      | obj fields =>
        unfold WfRegVal at hwf
        simp only [] at hwf
        cases hcfg : aget fields "config" with
        | none =>
          have hres : promote_canary st aid t1 t2 =
              (Except.error ApiErr.noExecutionConfig, st, emptyFx) := by
            unfold promote_canary
            rw [hr]
            simp only [rvalFalsy, rvalToJson, Bool.false_eq_true, if_false, hcfg]
          refine ⟨by simp [hres, hr], ?_, ?_, ?_⟩
          · simp only [hres, hr]
            simp [execCfgOf, hcfg]
          · simp only [hres, hr]
            simp [execCfgOf, hcfg]
          · intro r st' fx hok
            rw [hres] at hok
            simp at hok
        | some cfgv =>
          rw [hcfg] at hwf
          cases cfgv with
          | null => exact hwf.elim
          | bool b => exact hwf.elim
          | num n => exact hwf.elim
          | str s => exact hwf.elim
          | arr xs => exact hwf.elim
          | obj cfg =>
            simp only [] at hwf
            cases hexec : aget cfg "executionConfig" with
            | none =>
              have hres : promote_canary st aid t1 t2 =
                  (Except.error ApiErr.noExecutionConfig, st, emptyFx) := by
                unfold promote_canary
                rw [hr]
                simp only [rvalFalsy, rvalToJson, Bool.false_eq_true, if_false, hcfg, hexec]
              refine ⟨by simp [hres, hr], ?_, ?_, ?_⟩
              · simp only [hres, hr]
                simp [execCfgOf, hcfg, hexec]
              · simp only [hres, hr]
                simp [execCfgOf, hcfg, hexec]
              · intro r st' fx hok
                rw [hres] at hok
                simp at hok
            | some execv =>
              rw [hexec] at hwf
              cases execv with
              | null => exact hwf.elim
              | bool b => exact hwf.elim
              | num n => exact hwf.elim
              | str s => exact hwf.elim
              | arr xs => exact hwf.elim
              | obj execCfg =>
                simp only [] at hwf
                cases hc : isCanaryCfg execCfg with
                | false =>
                  have hres : promote_canary st aid t1 t2 =
                      (Except.error ApiErr.notInCanary, st, emptyFx) := by
                    unfold promote_canary
                    rw [hr]
                    simp only [rvalFalsy, rvalToJson, Bool.false_eq_true, if_false,
                      hcfg, hexec, hc]
                  obtain ⟨hm, hcm⟩ := isCanaryCfg_false_not execCfg hc
                  refine ⟨by simp [hres, hr], ?_, ?_, ?_⟩
                  · simp only [hres, hr]
                    simp [execCfgOf, hcfg, hexec]
                  · simp only [hres, hr]
                    constructor
                    · intro hx
                      exact ⟨fields, execCfg, rfl, by simp [execCfgOf, hcfg, hexec], hm, hcm⟩
                    · intro hx
                      simp
                  · intro r st' fx hok
                    rw [hres] at hok
                    simp at hok
                | true =>
                  have hres := promote_canary_ok_char st aid t1 t2 fields cfg execCfg
                    hr hcfg hexec hc
                  refine ⟨by simp [hres, hr], ?_, ?_, ?_⟩
                  · simp only [hres, hr]
                    simp only [execCfgOf, hcfg, hexec]
                    constructor
                    · intro hx
                      simp at hx
                    · rintro ⟨fields₀, heq, hnone⟩
                      simp only [Option.some.injEq, RVal.j.injEq, Json.obj.injEq] at heq
                      subst heq
                      simp only [execCfgOf, hcfg, hexec] at hnone
                      cases hnone
                  · simp only [hres, hr]
                    constructor
                    · intro hx
                      simp at hx
                    · rintro ⟨fields₀, execCfg₀, heq, hsome, hm, hcm⟩
                      simp only [Option.some.injEq, RVal.j.injEq, Json.obj.injEq] at heq
                      subst heq
                      simp only [execCfgOf, hcfg, hexec, Option.some.injEq] at hsome
                      subst hsome
                      cases isCanaryCfg_true_cases execCfg hwf hc with
                      | inl h => exact absurd h hm
                      | inr h => exact absurd h hcm
                  · intro r st' fx hok
                    have hst : st' = rset st (regKey aid)
                        (RVal.j (Json.obj (aset fields "config" (Json.obj (aset cfg
                          "executionConfig" (Json.obj (aset (aset execCfg "mode"
                            (Json.str "live")) "canaryMode" (Json.bool false)))))))) :=
                      (congrArg (fun p => p.2.1) (hres.symm.trans hok)).symm
                    subst hst
                    refine ⟨aset fields "config" (Json.obj (aset cfg "executionConfig"
                        (Json.obj (aset (aset execCfg "mode" (Json.str "live"))
                          "canaryMode" (Json.bool false))))),
                      aset (aset execCfg "mode" (Json.str "live")) "canaryMode"
                        (Json.bool false),
                      aget_aset_self _ _ _, ?_, ?_, aget_aset_self _ _ _⟩
                    · simp only [execCfgOf, aget_aset_self]
                    · rw [aget_aset_ne _ _ _ _ (by decide)]
                      exact aget_aset_self _ _ _

def canaryStore3 : Store :=
  [(regKey "a", RVal.j (Json.obj [("agentId", Json.str "a"),
    ("config", Json.obj [("executionConfig", Json.obj [("mode", Json.str "canary")])])]))]

/-- Witness for C3 on a concrete canary registration. -/
theorem promote_canary_error_conditions_witness :
    WfRegVal (rget canaryStore3 (regKey "a")) ∧
    (((promote_canary canaryStore3 "a" 1 2).1 = Except.error ApiErr.agentNotFound ↔
        rget canaryStore3 (regKey "a") = none) ∧
     ((promote_canary canaryStore3 "a" 1 2).1 = Except.error ApiErr.noExecutionConfig ↔
        (∃ fields, rget canaryStore3 (regKey "a") = some (RVal.j (Json.obj fields)) ∧
           execCfgOf fields = none)) ∧
     ((promote_canary canaryStore3 "a" 1 2).1 = Except.error ApiErr.notInCanary ↔
        (∃ fields execCfg,
           rget canaryStore3 (regKey "a") = some (RVal.j (Json.obj fields)) ∧
           execCfgOf fields = some execCfg ∧
           ¬ aget execCfg "mode" = some (Json.str "canary") ∧
           ¬ aget execCfg "canaryMode" = some (Json.bool true))) ∧
     (∀ r st' fx, promote_canary canaryStore3 "a" 1 2 = (Except.ok r, st', fx) →
        ∃ fields' execCfg',
          rget st' (regKey "a") = some (RVal.j (Json.obj fields')) ∧
          execCfgOf fields' = some execCfg' ∧
          aget execCfg' "mode" = some (Json.str "live") ∧
          aget execCfg' "canaryMode" = some (Json.bool false))) :=
  ⟨trivial, promote_canary_error_conditions canaryStore3 "a" 1 2 trivial⟩

/-- C10: a registration document that parses as JSON but lacks an
agentId field is not skipped as malformed by list(): it is included in
the returned sequence with agentId "unknown", and its state, metrics and
lastSignal are looked up under the `agent:unknown:` key prefix (the
stateKey/metricsKey/lastSignalKey of agent "unknown"). -/
theorem list_missing_agentId_unknown (st : Store) (k : String)
    (fields mf : List (String × Json)) (now : Int) (sv : String) (n : Int)
    (csig : Bool)
    (hk : k ∈ st.map Prod.fst) (hpat : matchesRegPattern k = true)
    (hreg : rget st k = some (RVal.j (Json.obj fields)))
    (hid : aget fields "agentId" = none)
    (htp : aget fields "tradingPairs" = none)
    (hat : aget fields "agentType" = none)
    (hcs : canarySignal fields = some csig)
    (hstate : rget st (stateKey "unknown") = some (RVal.s sv)) (hsv : ¬ sv = "")
    (hmet : rget st (metricsKey "unknown") = some (RVal.j (Json.obj mf)))
    (hcust : aget mf "custom" = none)
    (hsig : rget st (lastSignalKey "unknown") = some (RVal.i n)) :
    ∃ panel ∈ list_agents st now,
      panel.agentId = "unknown" ∧
      panel.status = derivedStatus sv csig ∧
      panel.lastSignal = n ∧
      panel.pnl24h = (aget mf "pnl").getD (Json.num 0) := by
  have hpr : processRegistration st (RVal.j (Json.obj fields)) now = some
      { agentId := "unknown", name := aget fields "name",
        status := derivedStatus sv csig, lastSignal := n,
        pnl24h := (aget mf "pnl").getD (Json.num 0),
        actions := actionsFor (derivedStatus sv csig),
        tags := (if csig = true then [Json.str "canary"] else []) ++
          (if derivedStatus sv csig = "paused" then [Json.str "paused"] else []),
        lastUpdated := now } := by
    simp [processRegistration, agentIdField, stateValue, metricsValue, lastSignalValue,
      tagsValue, pnlValue, derivedStatus, rvalFalsy, rvalToJson, hid, htp, hat, hcs,
      hstate, hmet, hcust, hsig, hsv]
  have hmem : ∀ p, processRegistration st (RVal.j (Json.obj fields)) now = some p →
      p ∈ list_agents st now := by
    intro p hp
    unfold list_agents
    apply List.mem_filterMap.mpr
    refine ⟨k, List.mem_filter.mpr ⟨hk, hpat⟩, ?_⟩
    rw [hreg]
    simpa using hp
  exact ⟨_, hmem _ hpr, rfl, rfl, rfl, rfl⟩

def ghostStore10 : Store :=
  [(regKey "ghost", RVal.j (Json.obj [("name", Json.str "Ghost")])),
   (stateKey "unknown", RVal.s "running"),
   (metricsKey "unknown", RVal.j (Json.obj [("pnl", Json.num 7)])),
   (lastSignalKey "unknown", RVal.i 42)]

/-- Witness for C10. -/
theorem list_missing_agentId_unknown_witness :
    (regKey "ghost" ∈ ghostStore10.map Prod.fst ∧
     matchesRegPattern (regKey "ghost") = true ∧
     rget ghostStore10 (regKey "ghost") =
       some (RVal.j (Json.obj [("name", Json.str "Ghost")])) ∧
     aget [("name", Json.str "Ghost")] "agentId" = (none : Option Json)) ∧
    (∃ panel ∈ list_agents ghostStore10 0,
       panel.agentId = "unknown" ∧
       panel.status = derivedStatus "running" false ∧
       panel.lastSignal = 42 ∧
       panel.pnl24h = (aget [("pnl", Json.num 7)] "pnl").getD (Json.num 0)) :=
  ⟨⟨by decide, rfl, rfl, rfl⟩,
   list_missing_agentId_unknown ghostStore10 (regKey "ghost")
     [("name", Json.str "Ghost")] [("pnl", Json.num 7)] 0 "running" 42 false
     (by decide) rfl rfl rfl rfl rfl rfl rfl (by decide) rfl rfl rfl⟩
